import Mathlib

/-!
Verification of the siml equivariant-GNN core against its source
(`siml/networks/abstract_equivariant_gnn.py`, `siml/networks/activations.py`).
Python functions are shallowly embedded as Lean definitions: machine floats
are modelled by rationals, tensors by (nested) lists or index functions,
and fallible code by `Except`.
-/

namespace Siml

/-- The propagation operator names accepted by
`AbstractEquivariantGNN._create_propagation_function`. -/
def knownPropagations : List String :=
  ["convolution", "contraction", "tensor_product", "rotation"]

/-- Configuration fields of `AbstractEquivariantGNN` relevant to
`_validate_block` (`block_setting.optional` entries and derived attributes).
`lastActivation` is `block_setting.activations[-1]`. -/
structure GNNConfig where
  create_subchain : Bool
  has_coefficient_network : Bool
  dim : Nat
  support_tensor_rank : Nat
  propagations : List String
  bias : Bool
  ah_w : Bool
  lastActivation : String
  deriving Repr, DecidableEq

/-- Number of occurrences of the name `t` in the propagation list
(`sum([s == t for s in str_propagations])`). -/
def n_count (t : String) (props : List String) : Nat :=
  (props.filter (fun s => s = t)).length

/-- `n_contraction` of `_validate_block`. -/
def n_contraction (props : List String) : Nat :=
  n_count "contraction" props

/-- `n_rank_raise_propagation = n_propagation - n_contraction` of
`_validate_block`: every non-contraction step counts as rank-raising. -/
def n_rank_raise_propagation (props : List String) : Nat :=
  props.length - n_contraction props

/-- `estimated_output_tensor_rank = x_tensor_rank - n_contraction
+ n_rank_raise_propagation` of `_validate_block` (Python int arithmetic,
so the value may be negative). -/
def estimated_output_tensor_rank (props : List String) (x_tensor_rank : Nat) : Int :=
  (x_tensor_rank : Int) - n_contraction props + n_rank_raise_propagation props

/-- The distinct `ValueError`s `_validate_block` can raise. -/
inductive ValidationError where
  | supportLength
  | identityActivationRequired
  | biasRank0ToK
  | biasRankKTo0
  | biasRankKToL
  deriving Repr, DecidableEq

/-- `AbstractEquivariantGNN._validate_block`, embedded step by step:
support-length check, early return when no subchain, early return when a
coefficient network exists, identity-activation check, then the bias rule
table split on input rank and estimated output rank. -/
def validate_block (cfg : GNNConfig) (x_tensor_rank : Nat) (n_supports : Nat) :
    Except ValidationError Unit :=
  if n_supports ≠ cfg.dim ^ cfg.support_tensor_rank then
    Except.error ValidationError.supportLength
  else if cfg.create_subchain = false then
    Except.ok ()
  else
    let est := estimated_output_tensor_rank cfg.propagations x_tensor_rank
    if cfg.has_coefficient_network then
      Except.ok ()
    else if 0 < est ∧ cfg.lastActivation ≠ "identity" then
      Except.error ValidationError.identityActivationRequired
    else if x_tensor_rank = 0 then
      if 0 < est then
        if cfg.bias = true ∧ cfg.ah_w = true then
          Except.error ValidationError.biasRank0ToK
        else
          Except.ok ()
      else
        Except.ok ()
    else
      if est = 0 then
        if cfg.bias = true ∧ cfg.ah_w = false then
          Except.error ValidationError.biasRankKTo0
        else
          Except.ok ()
      else
        if cfg.bias = true then
          Except.error ValidationError.biasRankKToL
        else
          Except.ok ()

/-- Modelled from the spec: the spec's rank arithmetic in which rotation
preserves rank, so the final rank is the input rank plus the number of
convolution and tensor-product steps minus the number of contraction steps.
Stated for comparison with `estimated_output_tensor_rank`. -/
def spec_rank_rotation_preserving (props : List String) (x_tensor_rank : Nat) : Int :=
  (x_tensor_rank : Int) + n_count "convolution" props + n_count "tensor_product" props
    - n_count "contraction" props

/-- A rank-0-to-rank-0 block (one convolution, one contraction) with bias
and (AH)W mode, used as a concrete instance of the bias rule table. -/
def cfg_rank0_bias_ahw : GNNConfig :=
  { create_subchain := true
    has_coefficient_network := false
    dim := 3
    support_tensor_rank := 1
    propagations := ["convolution", "contraction"]
    bias := true
    ah_w := true
    lastActivation := "identity" }

/-- A block whose plan is a single rotation with a non-identity final
activation. -/
def cfg_rotation_relu : GNNConfig :=
  { create_subchain := true
    has_coefficient_network := false
    dim := 3
    support_tensor_rank := 1
    propagations := ["rotation"]
    bias := false
    ah_w := false
    lastActivation := "relu" }

/-- A block whose plan is a single contraction with a non-identity final
activation: rank-1 input gives estimated output rank 0. -/
def cfg_contraction_tanh : GNNConfig :=
  { create_subchain := true
    has_coefficient_network := false
    dim := 3
    support_tensor_rank := 1
    propagations := ["contraction"]
    bias := false
    ah_w := false
    lastActivation := "tanh" }

/-- The range check of `activations.atanh`:
`torch.any(x > 1 + epsilon) or torch.any(x < -1 - epsilon)`.  Tensors are
modelled as lists of rationals. -/
def atanh_raises (x : List ℚ) (ε : ℚ) : Bool :=
  x.any (fun v => decide (1 + ε < v)) || x.any (fun v => decide (v < -1 - ε))

/-- The two sequential in-place masked assignments of `activations.atanh`:
`x[x > 1 - epsilon] = 1 - epsilon` followed by
`x[x < -1 + epsilon] = -1 + epsilon` on the updated tensor. -/
def atanh_clip_input (x : List ℚ) (ε : ℚ) : List ℚ :=
  (x.map (fun v => if 1 - ε < v then 1 - ε else v)).map
    (fun v => if v < -1 + ε then -1 + ε else v)

/-- The caller's input buffer after a call to `activations.atanh`:
unchanged when the range check raises (the masked assignments never run),
otherwise overwritten in place by the clipping. -/
def atanh_input_after (x : List ℚ) (ε : ℚ) : List ℚ :=
  if atanh_raises x ε then x else atanh_clip_input x ε

/-- `activations.atanh`, embedded over rationals: raise a range error,
otherwise clip the tensor in place and return it.  The returned list is the
tensor handed elementwise to `torch.atanh`; the transcendental map itself
is strictly monotone on the clipped range and is left abstract since every
claim concerns the check and the clipping. -/
def atanh (x : List ℚ) (ε : ℚ) : Except String (List ℚ) :=
  if atanh_raises x ε then
    Except.error "Input range not in (-1, 1)"
  else
    Except.ok (atanh_clip_input x ε)

/-- The distinct `ValueError`s `AbstractEquivariantGNN.__init__` (and the
`_init_neumann` it calls) can raise, in source order. -/
inductive InitError where
  | supportIndicesLength
  | zeroLayers
  | propagationsMissing
  | unexpectedPropagation
  | invalidInputNames
  | neumannBias
  deriving Repr, DecidableEq

/-- The `block_setting` fields consumed by `AbstractEquivariantGNN.__init__`. -/
structure InitArgs where
  support_input_indices : List Nat
  create_subchain : Bool
  nodes : List Nat
  bias : Bool
  propagations : Option (List String)
  input_names : Option (List String)
  create_neumann_linear : Bool
  deriving Repr, DecidableEq

/-- Whether `self.neumann_linear.bias is not None` in `_init_neumann`:
a fresh `create_neumann_linear` layer has no bias; otherwise the layer is
`subchains[0][0]`, which carries the block bias only in the single-layer
subchain case (the multi-layer case builds it with `bias=False`). -/
def neumann_linear_has_bias (a : InitArgs) : Bool :=
  if a.create_subchain = false then false
  else if a.create_neumann_linear then false
  else if a.nodes.length - 1 = 1 then a.bias
  else false

/-- `AbstractEquivariantGNN.__init__`, embedded as the sequence of its
validations in source order: the support-input-indices length check, the
zero-layer check during subchain creation, the required `propagations`
option, resolution of the propagation names, and the Neumann setup when
`input_names` is present. -/
def gnn_init (a : InitArgs) : Except InitError Unit :=
  if a.support_input_indices.length < 2 then
    Except.error InitError.supportIndicesLength
  else if a.create_subchain = true ∧ a.nodes.length - 1 = 0 then
    Except.error InitError.zeroLayers
  else
    match a.propagations with
    | none => Except.error InitError.propagationsMissing
    | some props =>
      if ¬ props.all (fun s => knownPropagations.contains s) then
        Except.error InitError.unexpectedPropagation
      else
        match a.input_names with
        | none => Except.ok ()
        | some names =>
          if names.length ≠ 3 then Except.error InitError.invalidInputNames
          else if neumann_linear_has_bias a then Except.error InitError.neumannBias
          else Except.ok ()

/-- Constructor arguments with a single support input index and no
`propagations` option. -/
def args_short_supports : InitArgs :=
  { support_input_indices := [0]
    create_subchain := true
    nodes := [4, 4]
    bias := false
    propagations := none
    input_names := none
    create_neumann_linear := false }

/-- `original_shapes` as passed to `activations.split` and the segment
reductions: either a list of per-group shapes or a mapping (whose contents
never matter because `split` raises immediately on mappings). -/
inductive OriginalShapes where
  | shapeList (l : List (List Nat))
  | shapeDict
  deriving Repr, DecidableEq

/-- `torch.split(x, sizes)` along the leading axis: contiguous runs of the
given sizes. -/
def split_sizes {α : Type} (x : List α) (sizes : List Nat) : List (List α) :=
  match sizes with
  | [] => []
  | s :: rest => x.take s :: split_sizes (x.drop s) rest

/-- `torch.split(x, sizes, dim=1)` on a 2-D tensor: each piece keeps all
rows, restricted to a contiguous run of columns. -/
def split_cols (x : List (List ℚ)) (sizes : List Nat) : List (List (List ℚ)) :=
  match sizes with
  | [] => []
  | s :: rest =>
    x.map (fun row => row.take s) :: split_cols (x.map (fun row => row.drop s)) rest

/-- `activations.split`: raise on mappings; a single group returns the
tensor whole; one-entry group shapes split rows along the leading axis;
two-entry group shapes split along axis 1; anything else raises.  The size
checks mirror `torch.split`'s requirement that the sizes sum to the length
of the split axis (tensors are rectangular, so the axis-1 length is the
first row's length). -/
def split (x : List (List ℚ)) (shapes : OriginalShapes) :
    Except String (List (List (List ℚ))) :=
  match shapes with
  | OriginalShapes.shapeDict =>
    Except.error "Input is dict. Specify dict_key in the block_setting.optional."
  | OriginalShapes.shapeList l =>
    if l.length = 1 then Except.ok [x]
    else
      match l.head? with
      | none => Except.error "IndexError: original_shapes is empty"
      | some s0 =>
        if s0.length = 1 then
          let sizes := l.map (fun s => s.headD 0)
          if sizes.sum = x.length then Except.ok (split_sizes x sizes)
          else Except.error "RuntimeError: split sizes"
        else if s0.length = 2 then
          let sizes := l.map (fun s => s.getD 1 0)
          if sizes.sum = (x.headD []).length then Except.ok (split_cols x sizes)
          else Except.error "RuntimeError: split sizes"
        else Except.error "Unexpected original_shapes"

/-- Pointwise (per-feature) fold of a binary reduction across the rows of
one group (`torch.max(s, dim=0)` and the like). -/
def reduce_rows (f : ℚ → ℚ → ℚ) (p : List (List ℚ)) : List ℚ :=
  match p with
  | [] => []
  | r :: rest => rest.foldl (fun acc row => List.zipWith f acc row) r

/-- Pointwise sum across the rows of one group. -/
def sum_rows (p : List (List ℚ)) : List ℚ :=
  match p with
  | [] => []
  | r :: rest => rest.foldl (fun acc row => List.zipWith (fun a b => a + b) acc row) r

/-- Pointwise mean across the rows of one group (`torch.mean(s, dim=0)`). -/
def mean_rows (p : List (List ℚ)) : List ℚ :=
  (sum_rows p).map (fun v => v / (p.length : ℚ))

/-- Fold of a binary reduction along one row (`torch.max(s, dim=1)` and
the like). -/
def row_fold (f : ℚ → ℚ → ℚ) (row : List ℚ) : ℚ :=
  match row with
  | [] => 0
  | v :: rest => rest.foldl f v

/-- Mean along one row (`torch.mean(s, dim=1)`). -/
def row_mean (row : List ℚ) : ℚ :=
  row.foldl (fun a b => a + b) 0 / (row.length : ℚ)

/-- Shared shape of `activations.max_pool`, `activations.mean` and
`activations.min`: split into groups, reduce each group over the axis
`len(original_shapes[0]) - 1`, and stack the reduced groups along that
axis, preserving group order. -/
def pool (red : List (List ℚ) → List ℚ) (rowRed : List ℚ → ℚ)
    (x : List (List ℚ)) (shapes : OriginalShapes) :
    Except String (List (List ℚ)) :=
  match split x shapes with
  | Except.error e => Except.error e
  | Except.ok pieces =>
    match shapes with
    | OriginalShapes.shapeDict => Except.error "unreachable: split raises on mappings"
    | OriginalShapes.shapeList l =>
      let d := (l.headD []).length - 1
      if d = 0 then Except.ok (pieces.map red)
      else Except.ok (List.transpose (pieces.map (fun p => p.map rowRed)))

/-- `activations.max_pool`. -/
def max_pool (x : List (List ℚ)) (shapes : OriginalShapes) :
    Except String (List (List ℚ)) :=
  pool (reduce_rows (fun a b => Max.max a b)) (row_fold (fun a b => Max.max a b)) x shapes

/-- `activations.mean`. -/
def mean (x : List (List ℚ)) (shapes : OriginalShapes) :
    Except String (List (List ℚ)) :=
  pool mean_rows row_mean x shapes

/-- `activations.min` (via `min_func`, which unwraps the tuple returned by
the reducing form of `torch.min`). -/
def min (x : List (List ℚ)) (shapes : OriginalShapes) :
    Except String (List (List ℚ)) :=
  pool (reduce_rows (fun a b => Min.min a b)) (row_fold (fun a b => Min.min a b)) x shapes

/-- Group shapes describing group sizes [3, 2, 4]. -/
def shapes324 : OriginalShapes := OriginalShapes.shapeList [[3], [2], [4]]

/-- A concrete 9-row, one-feature field with entries 0..8. -/
def field9 : List (List ℚ) :=
  [[0], [1], [2], [3], [4], [5], [6], [7], [8]]

/-- Attributes of the block relevant to the Neumann blend.  `_init_neumann`
stores the single weight of the learnable ratio layer
(`torch.nn.Linear(1, 1, bias=False)`) in `self.neumann_ratio`, modelled by
`blendWeight`; `self.coeff` is never assigned anywhere in the class, so a
missing attribute is `none`. -/
structure NeumannState where
  blendWeight : Option ℚ
  coeffAttr : Option ℚ
  deriving Repr, DecidableEq

/-- `AbstractEquivariantGNN._init_neumann` restricted to the ratio setup:
with `create_neumann_ratio` it creates the ratio layer with weight `w`;
no branch assigns `self.coeff`. -/
def init_neumann (create_blend : Bool) (w : ℚ) : NeumannState :=
  { blendWeight := if create_blend then some w else none
    coeffAttr := none }

/-- Rank-2 tensor fields over rationals: vertex index, two spatial axes,
feature index. -/
abbrev R2 := ℕ → ℕ → ℕ → ℕ → ℚ

/-- A `torch.nn.Linear` with weight `W` (out-feature × in-feature) over
`n_in` input features and optional bias `β`, applied to the trailing
feature axis of a rank-2 field. -/
def linear_r2 (W : ℕ → ℕ → ℚ) (β : ℕ → ℚ) (useBias : Bool) (n_in : ℕ)
    (h : R2) : R2 :=
  fun i a b f =>
    (∑ g ∈ Finset.range n_in, W f g * h i a b g) + (if useBias then β f else 0)

/-- The Neumann term of `_add_neumann`
(`einsum('ikl,il...f->ik...f', inversed_moment_tensors[..., 0],
self.neumann_linear(directed_neumann)) * self.neumann_factor`),
instantiated at rank-2 fields (one trailing spatial axis plus features). -/
def neumann_term_r2 (d : ℕ) (factor : ℚ) (nlW : ℕ → ℕ → ℚ) (nl_in : ℕ)
    (minv : ℕ → ℕ → ℕ → ℚ) (dn : R2) : R2 :=
  fun i k b f =>
    (∑ l ∈ Finset.range d,
      minv i k l * linear_r2 nlW (fun _ => 0) false nl_in dn i l b f) * factor

/-- `AbstractEquivariantGNN._add_neumann`: on the ratio branch it reads
`self.coeff.weight[0, 0]`, an attribute lookup that fails when the
attribute was never assigned; otherwise it returns `grad + neumann`.
`σ` stands for `torch.sigmoid` and is left abstract. -/
def add_neumann_r2 (d : ℕ) (factor : ℚ) (create_blend : Bool)
    (st : NeumannState) (σ : ℚ → ℚ) (nlW : ℕ → ℕ → ℚ) (nl_in : ℕ)
    (minv : ℕ → ℕ → ℕ → ℚ) (dn : R2) (grad : R2) : Except String R2 :=
  if create_blend then
    match st.coeffAttr with
    | none => Except.error "AttributeError: no attribute coeff"
    | some w =>
      Except.ok (fun i k b f =>
        (σ w * grad i k b f
          + (1 - σ w) * neumann_term_r2 d factor nlW nl_in minv dn i k b f) * 2)
  else
    Except.ok (fun i k b f =>
      grad i k b f + neumann_term_r2 d factor nlW nl_in minv dn i k b f)

/-- The flags of the block consumed by `_forward_single` and
`_propagate`. -/
structure ForwardFlags where
  ah_w : Bool
  symmetric : Bool
  residual : Bool
  has_neumann : Bool
  has_coefficient_network : Bool
  activation_after_residual : Bool
  deriving Repr, DecidableEq

/-- `AbstractEquivariantGNN._propagate` producing a rank-2 result, in
inference mode (`torch.nn.functional.dropout` with `training=False` is the
identity): the subchain weight applied before or after the propagation
core according to `ah_w`, the subclass-supplied propagation core (each
step already scaled by `factor`), then symmetrization via
`(h + rearrange(h, 'element x1 x2 feature -> element x2 x1 feature')) / 2`. -/
def propagate_r2 (fl : ForwardFlags) (W : ℕ → ℕ → ℚ) (β : ℕ → ℚ)
    (useBias : Bool) (n_in : ℕ) (core : R2 → R2) (x : R2) : R2 :=
  let h1 := if fl.ah_w then x else linear_r2 W β useBias n_in x
  let h2 := core h1
  let h3 := if fl.ah_w then linear_r2 W β useBias n_in h2 else h2
  if fl.symmetric then (fun i a b f => (h3 i a b f + h3 i b a f) / 2) else h3

/-- `AbstractEquivariantGNN._forward_single` producing a rank-2 result,
after the first-call validation, in inference mode: shortcut, propagation,
optional Neumann injection, optional coefficient gating
(`einsum('i...f,if->i...f', h_res, coeff)`), then the final
activation/residual ordering (`last_activation` is the identity when a
coefficient network exists). -/
def forward_single_r2 (fl : ForwardFlags) (W : ℕ → ℕ → ℚ) (β : ℕ → ℚ)
    (useBias : Bool) (n_in : ℕ) (core : R2 → R2) (shortcutF : R2 → R2)
    (act : ℚ → ℚ) (d : ℕ) (nfactor : ℚ) (create_blend : Bool)
    (st : NeumannState) (σ : ℚ → ℚ) (nlW : ℕ → ℕ → ℚ) (nl_in : ℕ)
    (minv : ℕ → ℕ → ℕ → ℚ) (dn : R2) (coeff : ℕ → ℕ → ℚ) (x : R2) :
    Except String R2 :=
  let shortcut : R2 := if fl.residual then shortcutF x else fun _ _ _ _ => 0
  let h0 := propagate_r2 fl W β useBias n_in core x
  match (if fl.has_neumann then
          add_neumann_r2 d nfactor create_blend st σ nlW nl_in minv dn h0
         else Except.ok h0) with
  | Except.error e => Except.error e
  | Except.ok h1 =>
    let h2 : R2 :=
      if fl.has_coefficient_network then (fun i a b f => h1 i a b f * coeff i f)
      else h1
    let lastAct : ℚ → ℚ :=
      if fl.has_coefficient_network then (fun q => q) else act
    Except.ok (if fl.activation_after_residual then
        (fun i a b f => lastAct (h2 i a b f + shortcut i a b f))
      else
        (fun i a b f => lastAct (h2 i a b f) + shortcut i a b f))

/-- The field of a successful forward call (zero field on error). -/
def r2_of (e : Except String R2) : R2 :=
  match e with
  | Except.ok g => g
  | Except.error _ => fun _ _ _ _ => 0

/-- Flags of a symmetric-output block with Neumann injection enabled,
identity final activation, no residual, no coefficient network. -/
def cex_flags : ForwardFlags :=
  { ah_w := false
    symmetric := true
    residual := false
    has_neumann := true
    has_coefficient_network := false
    activation_after_residual := true }

/-- Inverse moment tensors concentrated on the (0, 0) entry. -/
def cex_minv : ℕ → ℕ → ℕ → ℚ := fun _ k l => if k = 0 ∧ l = 0 then 1 else 0

/-- A directed boundary-gradient field supported on spatial axis b = 1. -/
def cex_dn : R2 := fun _ _ b _ => if b = 1 then 1 else 0

/-- The forward call of the symmetric block with Neumann injection on the
zero input field: zero subchain weights, identity propagation core,
dim 2, unit Neumann factor, no learnable ratio. -/
def cex_forward : Except String R2 :=
  forward_single_r2 cex_flags (fun _ _ => 0) (fun _ => 0) false 1
    (fun h => h) (fun h => h) (fun q => q) 2 1 false (init_neumann false 0)
    (fun q => q) (fun _ _ => 1) 1 cex_minv cex_dn (fun _ _ => 1)
    (fun _ _ _ _ => 0)

/-- For a list of known propagation names, the length is the sum of the
four per-operator counts. -/
lemma length_eq_counts (props : List String)
    (h : ∀ s ∈ props, s ∈ knownPropagations) :
    props.length = n_count "convolution" props + n_count "contraction" props
      + n_count "tensor_product" props + n_count "rotation" props := by
  induction props with
  | nil => simp [n_count]
  | cons a l ih =>
    have ha : a ∈ knownPropagations := h a (List.mem_cons_self a l)
    have hl : ∀ s ∈ l, s ∈ knownPropagations := fun s hs => h s (List.mem_cons_of_mem a hs)
    have ihl := ih hl
    simp only [knownPropagations, List.mem_cons, List.not_mem_nil, or_false] at ha
    rcases ha with h1 | h1 | h1 | h1 <;>
      subst h1 <;> simp [n_count, List.filter_cons] at ihl ⊢ <;> omega

/-- C1: the bias rule table of `_validate_block` for a block with a
subchain and no coefficient sub-network: rank-0 input with positive
estimated output rank and bias raises under (AH)W mode but passes under
A(HW) mode (with identity activation); positive input rank with estimated
output rank 0 and bias raises under A(HW) mode but passes under (AH)W
mode; positive input and output rank with bias always raises; and a
rank-0-to-rank-0 block passes even with bias enabled. -/
theorem C1_bias_rule_table (cfg : GNNConfig) (x_rank n_sup : Nat)
    (hs : cfg.create_subchain = true)
    (hc : cfg.has_coefficient_network = false)
    (hn : n_sup = cfg.dim ^ cfg.support_tensor_rank)
    (hb : cfg.bias = true) :
    (x_rank = 0 → 0 < estimated_output_tensor_rank cfg.propagations x_rank →
      cfg.ah_w = true → ∃ e, validate_block cfg x_rank n_sup = Except.error e)
    ∧ (x_rank = 0 → 0 < estimated_output_tensor_rank cfg.propagations x_rank →
      cfg.ah_w = false → cfg.lastActivation = "identity" →
      validate_block cfg x_rank n_sup = Except.ok ())
    ∧ (0 < x_rank → estimated_output_tensor_rank cfg.propagations x_rank = 0 →
      cfg.ah_w = false → ∃ e, validate_block cfg x_rank n_sup = Except.error e)
    ∧ (0 < x_rank → estimated_output_tensor_rank cfg.propagations x_rank = 0 →
      cfg.ah_w = true → validate_block cfg x_rank n_sup = Except.ok ())
    ∧ (0 < x_rank → 0 < estimated_output_tensor_rank cfg.propagations x_rank →
      ∃ e, validate_block cfg x_rank n_sup = Except.error e)
    ∧ (x_rank = 0 → estimated_output_tensor_rank cfg.propagations x_rank = 0 →
      validate_block cfg x_rank n_sup = Except.ok ()) := by
  refine ⟨?_, ?_, ?_, ?_, ?_, ?_⟩
  · intro h1 h2 h3
    subst h1
    by_cases hact : cfg.lastActivation = "identity"
    · exact ⟨ValidationError.biasRank0ToK,
        by simp [validate_block, hn, hs, hc, hb, h2, h3, hact]⟩
    · exact ⟨ValidationError.identityActivationRequired,
        by simp [validate_block, hn, hs, hc, hb, h2, h3, hact]⟩
  · intro h1 h2 h3 h4
    subst h1
    simp [validate_block, hn, hs, hc, hb, h2, h3, h4]
  · intro h1 h2 h3
    have h1' : x_rank ≠ 0 := by omega
    exact ⟨ValidationError.biasRankKTo0,
      by simp [validate_block, hn, hs, hc, hb, h1', h2, h3]⟩
  · intro h1 h2 h3
    have h1' : x_rank ≠ 0 := by omega
    simp [validate_block, hn, hs, hc, hb, h1', h2, h3]
  · intro h1 h2
    have h1' : x_rank ≠ 0 := by omega
    have h2' : estimated_output_tensor_rank cfg.propagations x_rank ≠ 0 := by omega
    by_cases hact : cfg.lastActivation = "identity"
    · exact ⟨ValidationError.biasRankKToL,
        by simp [validate_block, hn, hs, hc, hb, h1', h2, h2', hact]⟩
    · exact ⟨ValidationError.identityActivationRequired,
        by simp [validate_block, hn, hs, hc, hb, h1', h2, h2', hact]⟩
  · intro h1 h2
    subst h1
    simp [validate_block, hn, hs, hc, hb, h2]

/-- C1 witness: with bias and (AH)W mode, the rank-0-to-rank-0 block
passes validation. -/
theorem C1_bias_rule_table_witness :
    validate_block cfg_rank0_bias_ahw 0 3 = Except.ok () :=
  (C1_bias_rule_table cfg_rank0_bias_ahw 0 3 rfl rfl rfl rfl).2.2.2.2.2 rfl (by decide)

/-- C2 counterexample: on the plan `["rotation"]` with rank-0 input, the
code's estimated output rank is 1, not the 0 the spec's rotation-preserves-
rank arithmetic gives. -/
theorem C2_rotation_counterexample :
    estimated_output_tensor_rank ["rotation"] 0 = 1
      ∧ spec_rank_rotation_preserving ["rotation"] 0 = 0
      ∧ estimated_output_tensor_rank ["rotation"] 0
          ≠ spec_rank_rotation_preserving ["rotation"] 0 := by
  refine ⟨by decide, by decide, by decide⟩

/-- C2 (amended): for a plan containing rotation (all names known), the
estimated output rank counts every rotation step as rank-raising:
input rank plus the counts of convolution, tensor_product and rotation
steps minus the count of contraction steps; the identity-final-activation
check is assessed against exactly this estimate. -/
theorem C2_rotation_rank_estimate (props : List String) (x_rank : Nat)
    (hrot : "rotation" ∈ props)
    (hknown : ∀ s ∈ props, s ∈ knownPropagations) :
    estimated_output_tensor_rank props x_rank
      = (x_rank : Int) + (n_count "convolution" props + n_count "tensor_product" props
          + n_count "rotation" props) - n_count "contraction" props
    ∧ ∀ cfg : GNNConfig, ∀ n_sup : Nat, cfg.propagations = props →
        cfg.create_subchain = true → cfg.has_coefficient_network = false →
        n_sup = cfg.dim ^ cfg.support_tensor_rank →
        (validate_block cfg x_rank n_sup
            = Except.error ValidationError.identityActivationRequired
          ↔ 0 < estimated_output_tensor_rank props x_rank
            ∧ cfg.lastActivation ≠ "identity") := by
  constructor
  · have hlen := length_eq_counts props hknown
    have hk : n_contraction props ≤ props.length := List.length_filter_le _ _
    unfold estimated_output_tensor_rank n_rank_raise_propagation
    unfold n_contraction at *
    omega
  · intro cfg n_sup hp hs hc hn
    subst hp
    constructor
    · intro h
      by_cases h1 : 0 < estimated_output_tensor_rank cfg.propagations x_rank
      · by_cases h2 : cfg.lastActivation = "identity"
        · exfalso
          rw [validate_block] at h
          simp only [hn, hs, hc, h1, h2] at h
          split_ifs at h <;> simp_all
        · exact ⟨h1, h2⟩
      · exfalso
        rw [validate_block] at h
        simp only [hn, hs, hc, h1] at h
        split_ifs at h <;> simp_all
    · intro ⟨h1, h2⟩
      simp [validate_block, hn, hs, hc, h1, h2]

/-- C2 witness: for the single-rotation block with relu activation and
rank-0 input, validation raises the identity-activation error, because the
estimated output rank is 1. -/
theorem C2_rotation_rank_estimate_witness :
    validate_block cfg_rotation_relu 0 3
      = Except.error ValidationError.identityActivationRequired :=
  ((C2_rotation_rank_estimate ["rotation"] 0 (by decide) (by decide)).2
    cfg_rotation_relu 3 rfl rfl rfl rfl).mpr ⟨by decide, by decide⟩

/-- C4 counterexample: a single-contraction block on rank-1 input has
estimated output rank 0 and a non-identity (tanh) final activation, yet
validation passes, contradicting the claim that rank ≤ 0 with non-identity
activation must fail. -/
theorem C4_contraction_counterexample :
    validate_block cfg_contraction_tanh 1 3 = Except.ok ()
      ∧ cfg_contraction_tanh.lastActivation ≠ "identity"
      ∧ estimated_output_tensor_rank cfg_contraction_tanh.propagations 1 ≤ 0 :=
  ⟨rfl, by decide, by decide⟩

/-- C4 (amended): for a plan made solely of contraction steps, the
estimated output rank is the input rank minus the number of contraction
steps; validation raises the identity-activation error when that rank is
positive with a non-identity final activation, and never raises it when
that rank is ≤ 0. -/
theorem C4_contraction_only_rank (props : List String) (x_rank : Nat)
    (cfg : GNNConfig) (n_sup : Nat)
    (hall : ∀ s ∈ props, s = "contraction")
    (hp : cfg.propagations = props)
    (hs : cfg.create_subchain = true)
    (hc : cfg.has_coefficient_network = false)
    (hn : n_sup = cfg.dim ^ cfg.support_tensor_rank) :
    estimated_output_tensor_rank props x_rank = (x_rank : Int) - props.length
    ∧ (estimated_output_tensor_rank props x_rank ≤ 0 →
        validate_block cfg x_rank n_sup
          ≠ Except.error ValidationError.identityActivationRequired)
    ∧ (0 < estimated_output_tensor_rank props x_rank →
        cfg.lastActivation ≠ "identity" →
        validate_block cfg x_rank n_sup
          = Except.error ValidationError.identityActivationRequired) := by
  subst hp
  have hfull : n_contraction cfg.propagations = cfg.propagations.length := by
    unfold n_contraction n_count
    rw [List.filter_eq_self.mpr]
    intro a ha
    simpa using hall a ha
  refine ⟨?_, ?_, ?_⟩
  · unfold estimated_output_tensor_rank n_rank_raise_propagation
    omega
  · intro hle h
    have h1 : ¬ 0 < estimated_output_tensor_rank cfg.propagations x_rank := by omega
    rw [validate_block] at h
    simp only [hn, hs, hc, h1] at h
    split_ifs at h <;> simp_all
  · intro h1 h2
    simp [validate_block, hn, hs, hc, h1, h2]

/-- C4 witness: the single-contraction tanh block on rank-1 input does not
raise the identity-activation error (its estimated output rank is 0). -/
theorem C4_contraction_only_rank_witness :
    validate_block cfg_contraction_tanh 1 3
      ≠ Except.error ValidationError.identityActivationRequired :=
  (C4_contraction_only_rank ["contraction"] 1 cfg_contraction_tanh 3
    (by decide) rfl rfl rfl rfl).2.1 (by decide)

/-- C6: `_validate_block` raises the support-length error exactly when the
number of supplied support matrices differs from `dim ^ support_tensor_rank`;
with dim = 3 and support tensor rank 1, three supports pass the check and
two raise it. -/
theorem C6_support_length :
    (∀ cfg : GNNConfig, ∀ x_rank n_sup : Nat,
      validate_block cfg x_rank n_sup = Except.error ValidationError.supportLength
        ↔ n_sup ≠ cfg.dim ^ cfg.support_tensor_rank)
    ∧ validate_block cfg_rank0_bias_ahw 0 3 = Except.ok ()
    ∧ validate_block cfg_rank0_bias_ahw 0 2
        = Except.error ValidationError.supportLength := by
  refine ⟨?_, rfl, rfl⟩
  intro cfg x_rank n_sup
  constructor
  · intro h
    by_contra hcond
    rw [validate_block] at h
    simp only [hcond] at h
    split_ifs at h <;> simp_all
  · intro h
    simp [validate_block, h]

/-- C6 witness: a mismatched support count (2 instead of 3) raises the
support-length error on a concrete block. -/
theorem C6_support_length_witness :
    validate_block cfg_rotation_relu 1 2
      = Except.error ValidationError.supportLength :=
  (C6_support_length.1 cfg_rotation_relu 1 2).mpr (by decide)

/-- The range check fires exactly when some entry lies outside
`[-1 - ε, 1 + ε]`. -/
lemma atanh_raises_iff (x : List ℚ) (ε : ℚ) :
    atanh_raises x ε = true ↔ ∃ v ∈ x, 1 + ε < v ∨ v < -1 - ε := by
  unfold atanh_raises
  simp only [Bool.or_eq_true, List.any_eq_true, decide_eq_true_eq]
  constructor
  · rintro (⟨v, hv, h⟩ | ⟨v, hv, h⟩)
    · exact ⟨v, hv, Or.inl h⟩
    · exact ⟨v, hv, Or.inr h⟩
  · rintro ⟨v, hv, h | h⟩
    · exact Or.inl ⟨v, hv, h⟩
    · exact Or.inr ⟨v, hv, h⟩

/-- For tolerances `ε ≤ 1` the two sequential masked assignments coincide
with a single elementwise clip. -/
lemma atanh_clip_eq (x : List ℚ) (ε : ℚ) (hε : ε ≤ 1) :
    atanh_clip_input x ε = x.map (fun v =>
      if 1 - ε < v then 1 - ε else if v < -1 + ε then -1 + ε else v) := by
  unfold atanh_clip_input
  rw [List.map_map]
  apply List.map_congr_left
  intro v _
  by_cases h1 : 1 - ε < v
  · simp only [Function.comp_apply, if_pos h1]
    rw [if_neg (by linarith)]
  · simp only [Function.comp_apply, if_neg h1]

/-- A list mapped onto itself fixes every element. -/
lemma map_eq_self_forall {α : Type} (l : List α) (f : α → α) (h : l.map f = l) :
    ∀ v ∈ l, f v = v := by
  induction l with
  | nil => simp
  | cons a t ih =>
    simp only [List.map_cons, List.cons.injEq] at h
    intro v hv
    rcases List.mem_cons.mp hv with rfl | hvt
    · exact h.1
    · exact ih h.2 v hvt

/-- C7: `atanh` raises its range error exactly when some entry exceeds
`1 + ε` or lies below `-1 - ε`; otherwise it clips entries above `1 - ε`
down to `1 - ε` and entries below `-1 + ε` up to `-1 + ε` before the
inverse hyperbolic tangent.  Inputs of exactly `1` and `-1` are clipped
without raising, while `1.1` with `ε = 1e-5` raises. -/
theorem C7_atanh_range :
    (∀ (x : List ℚ) (ε : ℚ),
      (atanh x ε = Except.error "Input range not in (-1, 1)"
        ↔ ∃ v ∈ x, 1 + ε < v ∨ v < -1 - ε)
      ∧ (ε ≤ 1 → (∀ v ∈ x, v ≤ 1 + ε ∧ -1 - ε ≤ v) →
          atanh x ε = Except.ok (x.map (fun v =>
            if 1 - ε < v then 1 - ε else if v < -1 + ε then -1 + ε else v))))
    ∧ atanh [1, -1] (1 / 100000)
        = Except.ok [1 - 1 / 100000, -1 + 1 / 100000]
    ∧ atanh [11 / 10] (1 / 100000)
        = Except.error "Input range not in (-1, 1)" := by
  refine ⟨?_, by norm_num [atanh, atanh_raises, atanh_clip_input],
    by norm_num [atanh, atanh_raises]⟩
  intro x ε
  constructor
  · constructor
    · intro h
      by_cases hr : atanh_raises x ε
      · exact (atanh_raises_iff x ε).mp hr
      · simp [atanh, hr] at h
    · intro h
      simp [atanh, (atanh_raises_iff x ε).mpr h]
  · intro hε hbound
    have hr : atanh_raises x ε = false := by
      rw [Bool.eq_false_iff, Ne, atanh_raises_iff]
      push_neg
      intro v hv
      exact hbound v hv
    simp [atanh, hr, atanh_clip_eq x ε hε]

/-- C7 witness: an entry of exactly `1` with tolerance `1/2` passes the
check and is clipped to `1/2`. -/
theorem C7_atanh_range_witness :
    atanh [(1 : ℚ)] (1 / 2) = Except.ok [(1 : ℚ) / 2] := by
  have h := (C7_atanh_range.1 [(1 : ℚ)] (1 / 2)).2 (by norm_num)
    (by intro v hv; simp at hv; subst hv; norm_num)
  rw [h]
  norm_num

/-- C9: a successful `atanh` call overwrites the caller's tensor in place:
afterwards every entry above `1 - ε` reads `1 - ε` and every entry below
`-1 + ε` reads `-1 + ε`; whenever such an entry exists the argument is not
left unchanged by the call. -/
theorem C9_atanh_mutates_input (x : List ℚ) (ε : ℚ) (hε : ε ≤ 1)
    (hnr : atanh_raises x ε = false) :
    atanh_input_after x ε = x.map (fun v =>
      if 1 - ε < v then 1 - ε else if v < -1 + ε then -1 + ε else v)
    ∧ ((∃ v ∈ x, 1 - ε < v ∨ v < -1 + ε) → atanh_input_after x ε ≠ x) := by
  have heq : atanh_input_after x ε = x.map (fun v =>
      if 1 - ε < v then 1 - ε else if v < -1 + ε then -1 + ε else v) := by
    simp [atanh_input_after, hnr, atanh_clip_eq x ε hε]
  refine ⟨heq, ?_⟩
  rintro ⟨v, hv, hcase⟩ hsame
  rw [heq] at hsame
  have hfix := map_eq_self_forall x _ hsame v hv
  rcases hcase with h | h
  · rw [if_pos h] at hfix
    linarith
  · have hno : ¬ 1 - ε < v := by linarith
    rw [if_neg hno, if_pos h] at hfix
    linarith

/-- C9 witness: calling `atanh` on `[1, 0]` with `ε = 1e-5` leaves the
caller's buffer different from its original contents. -/
theorem C9_atanh_mutates_input_witness :
    atanh_input_after [1, 0] (1 / 100000) ≠ [1, 0] :=
  (C9_atanh_mutates_input [1, 0] (1 / 100000) (by norm_num)
    (by norm_num [atanh_raises])).2
    ⟨1, by simp, Or.inl (by norm_num)⟩

/-- C10: the constructor raises on `len(support_input_indices) < 2`, and
this check precedes every other constructor validation: even with the
`propagations` option missing, the support-indices error is the one
raised; with enough support indices, a missing `propagations` option
raises its own error. -/
theorem C10_support_indices_first (a : InitArgs) :
    (a.support_input_indices.length < 2 →
      gnn_init a = Except.error InitError.supportIndicesLength)
    ∧ (2 ≤ a.support_input_indices.length → a.propagations = none →
        ¬(a.create_subchain = true ∧ a.nodes.length - 1 = 0) →
        gnn_init a = Except.error InitError.propagationsMissing) := by
  constructor
  · intro h
    simp [gnn_init, h]
  · intro h1 h2 h3
    have h1' : ¬ a.support_input_indices.length < 2 := by omega
    simp [gnn_init, h1', h2, h3]

/-- C10 witness: one support input index with `propagations` absent
raises the support-indices error, not the missing-propagations error. -/
theorem C10_support_indices_first_witness :
    gnn_init args_short_supports = Except.error InitError.supportIndicesLength :=
  (C10_support_indices_first args_short_supports).1 (by decide)

/-- C8: on a 9-row field with group shapes [[3], [2], [4]], each segment
reduction returns exactly three aggregated rows, the j-th computed only
from the rows of the j-th contiguous group, in original group order; and
passing a mapping as the group shapes raises the dict usage error. -/
theorem C8_segment_reduction (x : List (List ℚ)) (hlen : x.length = 9) :
    max_pool x shapes324 = Except.ok
      [reduce_rows (fun a b => Max.max a b) (x.take 3),
       reduce_rows (fun a b => Max.max a b) ((x.drop 3).take 2),
       reduce_rows (fun a b => Max.max a b) ((x.drop 5).take 4)]
    ∧ mean x shapes324 = Except.ok
      [mean_rows (x.take 3),
       mean_rows ((x.drop 3).take 2),
       mean_rows ((x.drop 5).take 4)]
    ∧ min x shapes324 = Except.ok
      [reduce_rows (fun a b => Min.min a b) (x.take 3),
       reduce_rows (fun a b => Min.min a b) ((x.drop 3).take 2),
       reduce_rows (fun a b => Min.min a b) ((x.drop 5).take 4)]
    ∧ (∀ y : List (List ℚ),
        max_pool y OriginalShapes.shapeDict
          = Except.error "Input is dict. Specify dict_key in the block_setting.optional."
        ∧ mean y OriginalShapes.shapeDict
          = Except.error "Input is dict. Specify dict_key in the block_setting.optional."
        ∧ min y OriginalShapes.shapeDict
          = Except.error "Input is dict. Specify dict_key in the block_setting.optional.") := by
  have hsplit : split x (OriginalShapes.shapeList [[3], [2], [4]])
      = Except.ok [x.take 3, (x.drop 3).take 2, (x.drop 5).take 4] := by
    simp [split, split_sizes, hlen, List.drop_drop]
  refine ⟨?_, ?_, ?_, fun y => ⟨rfl, rfl, rfl⟩⟩ <;>
    simp [max_pool, mean, min, pool, shapes324, hsplit]

/-- C8 witness: groups of sizes [3, 2, 4] over the field 0..8 give
max [2, 4, 8], mean [1, 7/2, 13/2] and min [0, 3, 5], one row per group. -/
theorem C8_segment_reduction_witness :
    max_pool field9 shapes324 = Except.ok [[2], [4], [8]]
    ∧ mean field9 shapes324 = Except.ok [[1], [7 / 2], [13 / 2]]
    ∧ min field9 shapes324 = Except.ok [[0], [3], [5]] := by
  obtain ⟨h1, h2, h3, _⟩ := C8_segment_reduction field9 rfl
  refine ⟨?_, ?_, ?_⟩
  · rw [h1]
    norm_num [field9, reduce_rows, max_def]
  · rw [h2]
    norm_num [field9, mean_rows, sum_rows]
  · rw [h3]
    norm_num [field9, reduce_rows, min_def]

/-- C3: `_init_neumann` with `create_neumann_ratio` stores the ratio
weight in `neumann_ratio` and never assigns `coeff`, yet `_add_neumann`
reads `self.coeff.weight[0, 0]` on the ratio branch, so the blended path
fails with an attribute lookup error instead of returning the sigmoid
blend; without the ratio, the sum `grad + neumann` is returned as
claimed. -/
theorem C3_neumann_blend_attribute_error (d : ℕ) (factor w : ℚ) (σ : ℚ → ℚ)
    (nlW : ℕ → ℕ → ℚ) (nl_in : ℕ) (minv : ℕ → ℕ → ℕ → ℚ) (dn grad : R2) :
    add_neumann_r2 d factor true (init_neumann true w) σ nlW nl_in minv dn grad
        = Except.error "AttributeError: no attribute coeff"
    ∧ (init_neumann true w).blendWeight = some w
    ∧ (init_neumann true w).coeffAttr = none
    ∧ add_neumann_r2 d factor false (init_neumann false w) σ nlW nl_in minv dn grad
        = Except.ok (fun i k b f =>
            grad i k b f + neumann_term_r2 d factor nlW nl_in minv dn i k b f) :=
  ⟨rfl, rfl, rfl, rfl⟩

/-- C5 counterexample: a symmetric-output block with Neumann boundary
injection, identity final activation and no residual produces an output
with `output[0,0,1,0] = 1` but `output[0,1,0,0] = 0`: the Neumann term is
added after the symmetrization inside `_propagate`, so the claim fails as
stated. -/
theorem C5_symmetric_counterexample :
    cex_flags.symmetric = true
    ∧ r2_of cex_forward 0 0 1 0 = 1
    ∧ r2_of cex_forward 0 1 0 0 = 0
    ∧ r2_of cex_forward 0 0 1 0 ≠ r2_of cex_forward 0 1 0 0 := by
  have h1 : r2_of cex_forward 0 0 1 0 = 1 := by
    simp [cex_forward, forward_single_r2, propagate_r2, add_neumann_r2,
      neumann_term_r2, linear_r2, init_neumann, cex_flags, cex_minv, cex_dn,
      r2_of, Finset.sum_range_succ]
  have h2 : r2_of cex_forward 0 1 0 0 = 0 := by
    simp [cex_forward, forward_single_r2, propagate_r2, add_neumann_r2,
      neumann_term_r2, linear_r2, init_neumann, cex_flags, cex_minv, cex_dn,
      r2_of, Finset.sum_range_succ]
  exact ⟨rfl, h1, h2, by rw [h1, h2]; norm_num⟩

/-- C5 (amended): with symmetric-output mode the propagation result is the
average of the unsymmetrized result with its transpose over the two
trailing spatial axes, and the forward output of a rank-2 block satisfies
`output[i,a,b] = output[i,b,a]` given identity final activation, no
residual shortcut and no Neumann boundary injection (in inference mode). -/
theorem C5_symmetrization (fl : ForwardFlags) (W : ℕ → ℕ → ℚ) (β : ℕ → ℚ)
    (useBias : Bool) (n_in : ℕ) (core : R2 → R2) (shortcutF : R2 → R2)
    (act : ℚ → ℚ) (d : ℕ) (nfactor : ℚ) (create_blend : Bool)
    (st : NeumannState) (σ : ℚ → ℚ) (nlW : ℕ → ℕ → ℚ) (nl_in : ℕ)
    (minv : ℕ → ℕ → ℕ → ℚ) (dn : R2) (coeff : ℕ → ℕ → ℚ) (x : R2)
    (hsym : fl.symmetric = true) :
    (∀ i a b f,
      propagate_r2 fl W β useBias n_in core x i a b f
        = (propagate_r2 { fl with symmetric := false } W β useBias n_in core x i a b f
            + propagate_r2 { fl with symmetric := false } W β useBias n_in core x i b a f)
          / 2)
    ∧ (fl.has_neumann = false → fl.residual = false → (∀ q, act q = q) →
        ∀ i a b f,
          r2_of (forward_single_r2 fl W β useBias n_in core shortcutF act d nfactor
              create_blend st σ nlW nl_in minv dn coeff x) i a b f
            = r2_of (forward_single_r2 fl W β useBias n_in core shortcutF act d nfactor
              create_blend st σ nlW nl_in minv dn coeff x) i b a f) := by
  have hswap : ∀ i a b f,
      propagate_r2 fl W β useBias n_in core x i a b f
        = propagate_r2 fl W β useBias n_in core x i b a f := by
    intro i a b f
    simp only [propagate_r2, hsym, if_true]
    ring
  constructor
  · intro i a b f
    simp [propagate_r2, hsym]
  · intro hn hr hact i a b f
    simp only [forward_single_r2, hn, hr, Bool.false_eq_true, if_false]
    cases hco : fl.has_coefficient_network <;>
      cases haar : fl.activation_after_residual <;>
        simp [r2_of, hco, haar, hact, hswap i a b f]

/-- C5 witness: on a concrete symmetric block without Neumann injection
(identity activation, no residual) the forward output is symmetric in the
two spatial axes at the sample indices. -/
theorem C5_symmetrization_witness :
    r2_of (forward_single_r2
        { cex_flags with has_neumann := false } (fun _ _ => 0) (fun _ => 0)
        false 1 (fun h => h) (fun h => h) (fun q => q) 2 1 false
        (init_neumann false 0) (fun q => q) (fun _ _ => 1) 1 cex_minv cex_dn
        (fun _ _ => 1) cex_dn) 0 0 1 0
      = r2_of (forward_single_r2
        { cex_flags with has_neumann := false } (fun _ _ => 0) (fun _ => 0)
        false 1 (fun h => h) (fun h => h) (fun q => q) 2 1 false
        (init_neumann false 0) (fun q => q) (fun _ _ => 1) 1 cex_minv cex_dn
        (fun _ _ => 1) cex_dn) 0 1 0 0 :=
  (C5_symmetrization { cex_flags with has_neumann := false } (fun _ _ => 0)
      (fun _ => 0) false 1 (fun h => h) (fun h => h) (fun q => q) 2 1 false
      (init_neumann false 0) (fun q => q) (fun _ _ => 1) 1 cex_minv cex_dn
      (fun _ _ => 1) cex_dn rfl).2 rfl rfl (fun q => rfl) 0 0 1 0

end Siml
